import Mathlib

/-!
Shallow embedding of the `mobi` data-acquisition package
(`src/mobi/data_processor.py`, `src/mobi/data_downloader.py`,
`src/mobi/gbfs.py`) and proofs about the claims on it.

Dataframes are modelled as a header (list of column names) plus rows of
cells; pandas NaN/NaT/None all collapse into `Cell.nullV`; floats are
modelled as rationals; `datetime64[ns]` values as nanosecond integers.
-/

namespace Mobi

/-- A cell of a pandas dataframe: string, numeric (float modelled as a
rational), boolean, `datetime64[ns]` (nanoseconds since the epoch), or a
missing value (NaN/NaT/None collapsed together). -/
inductive Cell where
  | str (s : String)
  | num (q : Rat)
  | boolV (b : Bool)
  | ts (ns : Int)
  | nullV
  deriving DecidableEq, Repr

/-- A pandas dataframe: the column index plus the rows, each row aligned
with the header. -/
structure Frame where
  header : List String
  rows : List (List Cell)
  deriving DecidableEq, Repr

instance : Inhabited Frame := ⟨⟨[], []⟩⟩

/-- Decidable equality on `Except`, for evaluating results by `decide`. -/
instance {ε α : Type} [DecidableEq ε] [DecidableEq α] : DecidableEq (Except ε α) :=
  fun a b =>
    match a, b with
    | .ok x, .ok y =>
        if h : x = y then isTrue (by rw [h])
        else isFalse (fun hc => by cases hc; exact h rfl)
    | .error x, .error y =>
        if h : x = y then isTrue (by rw [h])
        else isFalse (fun hc => by cases hc; exact h rfl)
    | .ok _, .error _ => isFalse (fun hc => by cases hc)
    | .error _, .ok _ => isFalse (fun hc => by cases hc)

/-! ### Python string helpers used by the embedded code -/

/-- The ASCII whitespace characters recognised by Python's `str.strip()`
(and by the regex class `\s` on ASCII input). -/
def pyIsSpace (c : Char) : Bool :=
  c = ' ' || c = '\t' || c = '\n' || c = '\r' || c = '\x0b' || c = '\x0c'

/-- Python `str.strip()`: drop leading and trailing whitespace. -/
def pyStrip (s : String) : String :=
  String.mk (((s.toList.dropWhile pyIsSpace).reverse.dropWhile pyIsSpace).reverse)

/-- Python `str.lower()` (ASCII case folding suffices for this code). -/
def pyLower (s : String) : String :=
  String.mk (s.toList.map Char.toLower)

/-- `pandas.Series.str.replace(" ", "_")`: every space character becomes an
underscore. -/
def replaceSpaceUnderscore (s : String) : String :=
  String.mk (s.toList.map (fun c => if c = ' ' then '_' else c))

/-- Python `str.endswith` (computed on the character lists). -/
def strEndsWith (s pat : String) : Bool :=
  pat.toList.isSuffixOf s.toList

/-- Python `str.startswith` (computed on the character lists). -/
def strStartsWith (s pat : String) : Bool :=
  pat.toList.isPrefixOf s.toList

/-- Is `needle` an infix of `cs`? -/
def listIsInfix (needle : List Char) : List Char → Bool
  | [] => needle.isEmpty
  | c :: t => needle.isPrefixOf (c :: t) || listIsInfix needle t

/-- Python's `needle in hay` on strings. -/
def containsSub (hay needle : String) : Bool :=
  listIsInfix needle.toList hay.toList

/-! ### Column sanitization and schema standardization
(`standardize_trip_schema`, data_processor.py lines 74-127) -/

/-- The column sanitization actually performed at data_processor.py line 92:
`df.columns.str.strip().str.lower().str.replace(" ", "_")`. -/
def sanitizeColumn (s : String) : String :=
  replaceSpaceUnderscore (pyLower (pyStrip s))

/-- Modelled from the spec: the sanitization the specification describes
(lower-case, trim, collapse every run of characters outside `[a-z0-9_]` to a
single underscore, strip leading/trailing underscores, prefix an underscore
when the result starts with a digit, name `"column"` when empty). Used only
to compare the spec's description with `sanitizeColumn`. -/
def sanitizeColumnSpec (s : String) : String :=
  let lowered := (pyLower (pyStrip s)).toList
  let keep : Char → Bool := fun c => (('a' ≤ c ∧ c ≤ 'z') ∨ ('0' ≤ c ∧ c ≤ '9') ∨ c = '_')
  let collapsed : List Char :=
    (lowered.foldl (fun (acc : List Char × Bool) c =>
      if keep c then (acc.1 ++ [c], false)
      else if acc.2 then acc
      else (acc.1 ++ ['_'], true)) ([], false)).1
  let stripped := ((collapsed.dropWhile (· = '_')).reverse.dropWhile (· = '_')).reverse
  match stripped with
  | [] => "column"
  | c :: _ => if '0' ≤ c ∧ c ≤ '9' then String.mk ('_' :: stripped) else String.mk stripped

/-- The fixed rename table of `standardize_trip_schema` (old name, new name),
in dict insertion order. -/
def column_mappings : List (String × String) :=
  [("departure", "departure_time"),
   ("return", "return_time"),
   ("departure_station", "departure_station_name"),
   ("return_station", "return_station_name"),
   ("covered_distance", "covered_distance_km"),
   ("duration", "duration_sec"),
   ("stopover", "has_stopover"),
   ("bike", "bike_id"),
   ("account", "account_id")]

/-- One pass of the rename loop: `df.rename(columns={old: new})` is applied
only when `old` is a current column and `new` is not. -/
def applyMapping (cols : List String) (p : String × String) : List String :=
  if p.1 ∈ cols ∧ p.2 ∉ cols then cols.map (fun c => if c = p.1 then p.2 else c)
  else cols

/-- The whole rename loop over `column_mappings`. -/
def applyMappings (cols : List String) : List String :=
  column_mappings.foldl applyMapping cols

/-- Apply `g` cellwise to the column named `name` when it exists (the
`if col in df.columns: df[col] = ...` pattern). -/
def mapColumnAt (f : Frame) (name : String) (g : Cell → Cell) : Frame :=
  match f.header.indexOf? name with
  | none => f
  | some i => { f with rows := f.rows.map (fun r => r.set i (g (r.getD i .nullV))) }

/-- Decimal digits to a natural number. -/
def digitsToNat (cs : List Char) : Nat :=
  cs.foldl (fun a c => a * 10 + (c.toNat - 48)) 0

/-- Parse an unsigned decimal literal (`digits`, `digits.digits`, `.digits`,
`digits.`) into a rational. Exponents and special floats are not used by any
data this development evaluates. -/
def parseUnsignedDecimal (cs : List Char) : Option Rat :=
  let intPart := cs.takeWhile Char.isDigit
  let rest := cs.dropWhile Char.isDigit
  match rest with
  | [] => if intPart = [] then none else some ((digitsToNat intPart : Int) : Rat)
  | '.' :: fracPart =>
      if fracPart.all Char.isDigit ∧ (intPart ≠ [] ∨ fracPart ≠ []) then
        some (((digitsToNat intPart : Int) : Rat)
          + ((digitsToNat fracPart : Int) : Rat) / ((10 ^ fracPart.length : Int) : Rat))
      else none
  | _ => none

/-- Parse a possibly signed decimal literal, after Python-style whitespace
stripping (as `float()` / `pd.to_numeric` accept). -/
def parseDecimal (s : String) : Option Rat :=
  match (pyStrip s).toList with
  | '-' :: rest => (parseUnsignedDecimal rest).map (fun q => -q)
  | '+' :: rest => parseUnsignedDecimal rest
  | cs => parseUnsignedDecimal cs

/-- Days from the civil epoch 1970-01-01 for a (proleptic Gregorian) date. -/
def daysFromCivil (y : Int) (m d : Nat) : Int :=
  let yAdj : Int := if m ≤ 2 then y - 1 else y
  let era : Int := (if 0 ≤ yAdj then yAdj else yAdj - 399) / 400
  let yoe : Int := yAdj - era * 400
  let mp : Nat := (m + 9) % 12
  let doy : Int := (153 * (mp : Int) + 2) / 5 + (d : Int) - 1
  let doe : Int := yoe * 365 + yoe / 4 - yoe / 100 + doy
  era * 146097 + doe - 719468

/-- Number of days in a month of a given year. -/
def daysInMonth (y : Int) (m : Nat) : Nat :=
  if m = 2 then (if y % 4 = 0 ∧ (y % 100 ≠ 0 ∨ y % 400 = 0) then 29 else 28)
  else if m ∈ [4, 6, 9, 11] then 30 else 31

/-- Parse `YYYY-MM-DD` (optionally followed by ` HH:MM:SS`) into epoch
nanoseconds, as `pd.to_datetime` accepts for ISO-style trip timestamps;
anything else is unparseable and will coerce to a missing value. -/
def parseDatetimeNs (s : String) : Option Int :=
  let cs := (pyStrip s).toList
  match cs with
  | y1 :: y2 :: y3 :: y4 :: '-' :: m1 :: m2 :: '-' :: d1 :: d2 :: rest =>
      if [y1, y2, y3, y4, m1, m2, d1, d2].all Char.isDigit then
        let y : Int := (digitsToNat [y1, y2, y3, y4] : Int)
        let mo := digitsToNat [m1, m2]
        let d := digitsToNat [d1, d2]
        if 1 ≤ mo ∧ mo ≤ 12 ∧ 1 ≤ d ∧ d ≤ daysInMonth y mo then
          let base : Int := daysFromCivil y mo d * 86400
          match rest with
          | [] => some (base * 1000000000)
          | ' ' :: h1 :: h2 :: ':' :: mi1 :: mi2 :: ':' :: s1 :: s2 :: [] =>
              if [h1, h2, mi1, mi2, s1, s2].all Char.isDigit then
                let h := digitsToNat [h1, h2]
                let mi := digitsToNat [mi1, mi2]
                let sec := digitsToNat [s1, s2]
                if h ≤ 23 ∧ mi ≤ 59 ∧ sec ≤ 59 then
                  some ((base + (h * 3600 + mi * 60 + sec : Nat)) * 1000000000)
                else none
              else none
          | _ => none
        else none
      else none
  | _ => none

/-- Cellwise `pd.to_datetime(.., errors="coerce")`: existing timestamps pass
through, parseable strings become timestamps, everything else coerces to a
missing value (numeric cells are interpreted as epoch nanoseconds). -/
def toDatetimeCoerce : Cell → Cell
  | .ts t => .ts t
  | .str s => match parseDatetimeNs s with
              | some t => .ts t
              | none => .nullV
  | .num q => .ts q.floor
  | _ => .nullV

/-- Cellwise `pd.to_numeric(.., errors="coerce")`: numbers pass through,
parseable strings become numbers, booleans become 0/1, timestamps expose
their nanosecond value, missing stays missing. -/
def toNumericCoerce : Cell → Cell
  | .num q => .num q
  | .str s => match parseDecimal s with
              | some q => .num q
              | none => .nullV
  | .boolV b => .num (if b then 1 else 0)
  | .ts t => .num (t : Rat)
  | .nullV => .nullV

/-- The `has_stopover` mapping (`Series.map` with the yes/no dictionary):
unmapped values become missing; numeric `1`/`0` hash-match the `True`/`False`
dictionary keys exactly as in Python. -/
def mapStopover : Cell → Cell
  | .str "Yes" => .boolV true
  | .str "No" => .boolV false
  | .str "yes" => .boolV true
  | .str "no" => .boolV false
  | .boolV b => .boolV b
  | .num q => if q = 1 then .boolV true else if q = 0 then .boolV false else .nullV
  | _ => .nullV

/-- The datetime columns coerced by `standardize_trip_schema`. -/
def datetime_columns : List String := ["departure_time", "return_time"]

/-- The numeric columns coerced by `standardize_trip_schema`. -/
def numeric_columns : List String := ["covered_distance_km", "duration_sec"]

/-- The pipeline of `standardize_trip_schema` after the column-index
sanitization: rename table, datetime coercion, numeric coercion, boolean
mapping. -/
def standardizeTail (df1 : Frame) : Frame :=
  let df2 : Frame := { df1 with header := applyMappings df1.header }
  let df3 := datetime_columns.foldl (fun f c => mapColumnAt f c toDatetimeCoerce) df2
  let df4 := numeric_columns.foldl (fun f c => mapColumnAt f c toNumericCoerce) df3
  mapColumnAt df4 "has_stopover" mapStopover

/-- `standardize_trip_schema` (data_processor.py lines 58-127) as a pure
function on the copied frame: sanitize the column index, apply the rename
table, coerce datetime and numeric columns, map the boolean column. -/
def standardize_trip_schema (df : Frame) : Frame :=
  standardizeTail { df with header := df.header.map sanitizeColumn }

/-! ### Reading trip data files
(`read_trip_data_file`, data_processor.py lines 21-55) -/

/-- Strict UTF-8 decoding of a byte list into code points, with the checks
Python's decoder performs (continuation ranges, overlong forms, surrogates,
upper bound). The fuel argument is a decreasing measure, instantiated with
the input length. -/
def utf8DecodeFuel : Nat → List Nat → Option (List Nat)
  | _, [] => some []
  | 0, _ :: _ => none
  | fuel + 1, b :: rest =>
    if b < 0x80 then
      (utf8DecodeFuel fuel rest).map (fun t => b :: t)
    else if 0xC2 ≤ b ∧ b ≤ 0xDF then
      match rest with
      | c1 :: rest2 =>
          if 0x80 ≤ c1 ∧ c1 ≤ 0xBF then
            (utf8DecodeFuel fuel rest2).map
              (fun t => ((b - 0xC0) * 64 + (c1 - 0x80)) :: t)
          else none
      | [] => none
    else if 0xE0 ≤ b ∧ b ≤ 0xEF then
      match rest with
      | c1 :: c2 :: rest2 =>
          let lo1 := if b = 0xE0 then 0xA0 else 0x80
          let hi1 := if b = 0xED then 0x9F else 0xBF
          if lo1 ≤ c1 ∧ c1 ≤ hi1 ∧ 0x80 ≤ c2 ∧ c2 ≤ 0xBF then
            (utf8DecodeFuel fuel rest2).map
              (fun t => ((b - 0xE0) * 4096 + (c1 - 0x80) * 64 + (c2 - 0x80)) :: t)
          else none
      | _ => none
    else if 0xF0 ≤ b ∧ b ≤ 0xF4 then
      match rest with
      | c1 :: c2 :: c3 :: rest2 =>
          let lo1 := if b = 0xF0 then 0x90 else 0x80
          let hi1 := if b = 0xF4 then 0x8F else 0xBF
          if lo1 ≤ c1 ∧ c1 ≤ hi1 ∧ 0x80 ≤ c2 ∧ c2 ≤ 0xBF ∧ 0x80 ≤ c3 ∧ c3 ≤ 0xBF then
            (utf8DecodeFuel fuel rest2).map
              (fun t =>
                ((b - 0xF0) * 262144 + (c1 - 0x80) * 4096 + (c2 - 0x80) * 64
                  + (c3 - 0x80)) :: t)
          else none
      | _ => none
    else none

/-- Strict UTF-8 decoding: `none` exactly when the bytes are not valid
UTF-8 (a `UnicodeDecodeError` in Python). -/
def utf8Decode (bs : List Nat) : Option (List Nat) :=
  utf8DecodeFuel bs.length bs

/-- Latin-1 decoding: every byte is its own code point; it never fails.
Used only to state the claim about the (absent) encoding fallback. -/
def latin1Decode (bs : List Nat) : List Nat := bs

/-- Split a character list on a separator (keeping empty pieces). -/
def splitOnChar (sep : Char) : List Char → List (List Char)
  | [] => [[]]
  | c :: rest =>
      let r := splitOnChar sep rest
      if c = sep then [] :: r
      else
        match r with
        | f :: t => (c :: f) :: t
        | [] => [[c]]

/-- Drop a trailing carriage return (CRLF line endings). -/
def stripTrailingCr (l : List Char) : List Char :=
  match l.getLast? with
  | some '\r' => l.dropLast
  | _ => l

/-- The dtype pandas infers for one column of parsed CSV fields. -/
inductive ColKind where
  | numK
  | boolK
  | strK
  deriving DecidableEq, Repr

/-- Column-level dtype inference of `pd.read_csv`: all non-empty fields
numeric gives a numeric column, all `True`/`False` gives a boolean column,
otherwise strings; empty fields are missing values in every case. -/
def columnKind (vals : List (Option String)) : ColKind :=
  let nonEmpty := vals.filterMap id
  if nonEmpty ≠ [] ∧ nonEmpty.all (fun s => (parseDecimal s).isSome) then .numK
  else if nonEmpty ≠ [] ∧ nonEmpty.all (fun s => s = "True" ∨ s = "False") then .boolK
  else .strK

/-- Turn one raw CSV field into a cell, given its column's inferred dtype. -/
def mkCell (k : ColKind) : Option String → Cell
  | none => .nullV
  | some s =>
      match k with
      | .numK =>
          match parseDecimal s with
          | some q => .num q
          | none => .nullV
      | .boolK => .boolV (s = "True")
      | .strK => .str s

/-- Helper for `mangleDupes`, carrying the names seen so far. -/
def mangleDupesGo : List String → List String → List String
  | _, [] => []
  | seen, nm :: rest =>
      let k := seen.count nm
      (if k = 0 then nm else nm ++ "." ++ toString k) :: mangleDupesGo (nm :: seen) rest

/-- `pd.read_csv` deduplication of repeated header names (`a`, `a.1`, ...). -/
def mangleDupes (names : List String) : List String := mangleDupesGo [] names

/-- The failure modes of reading one file, i.e. the underlying exceptions
that `read_trip_data_file` wraps into its `DataProcessorError`. -/
inductive ReadErr where
  | unicodeDecode
  | emptyData
  | tokenizeError
  | noCsvInZip
  deriving DecidableEq, Repr

/-- `pd.read_csv` on already-decoded text: first non-blank line is the
header, blank lines are skipped, a data row with more fields than the
header is a tokenize error, short rows are padded with missing values, and
dtypes are inferred per column. (Quoting and the implicit-index inference
for uniformly over-long rows are not exercised by any claim and are not
modelled.) -/
def parseCsvFrame (chars : List Char) : Except ReadErr Frame :=
  let lines := ((splitOnChar '\n' chars).map stripTrailingCr).filter (fun l => l ≠ [])
  match lines with
  | [] => .error .emptyData
  | hdr :: dataLines =>
      let header := mangleDupes ((splitOnChar ',' hdr).map String.mk)
      let n := header.length
      if dataLines.any (fun l => (splitOnChar ',' l).length > n) then
        .error .tokenizeError
      else
        let grid : List (List (Option String)) := dataLines.map (fun l =>
          let fs := (splitOnChar ',' l).map (fun f =>
            let s := String.mk f
            if s = "" then none else some s)
          fs ++ List.replicate (n - fs.length) none)
        let kinds := (List.range n).map (fun j =>
          columnKind (grid.map (fun r => r.getD j none)))
        .ok { header := header,
              rows := grid.map (fun r =>
                (List.range n).map (fun j => mkCell (kinds.getD j .strK) (r.getD j none))) }

/-- `pd.read_csv` on raw bytes, with pandas' default (UTF-8 only) decoding. -/
def pdReadCsvBytes (bs : List Nat) : Except ReadErr Frame :=
  match utf8Decode bs with
  | none => .error .unicodeDecode
  | some cps => parseCsvFrame (cps.map Char.ofNat)

/-- The typed exceptions of the data processor: the distinct raise sites of
data_processor.py, with messages abstracted to the wrapped cause. -/
inductive DPError where
  | readError (path : String) (cause : ReadErr)
  | noFilesProvided
  | noFilesRead
  deriving DecidableEq, Repr

/-- An input file for `read_trip_data_file`. The `.zip` suffix dispatch
(`file_path.suffix.lower() == ".zip"`) is represented by the constructor:
a ZIP archive is its member list (name, bytes), any other file is raw
bytes. `name` is the basename (`file_path.name`). -/
inductive TripFile where
  | csvFile (name : String) (bytes : List Nat)
  | zipFile (name : String) (entries : List (String × List Nat))
  deriving DecidableEq, Repr

/-- The basename of a trip file (`file_path.name`). -/
def TripFile.fileName : TripFile → String
  | .csvFile name _ => name
  | .zipFile name _ => name

/-- `read_trip_data_file` (data_processor.py lines 21-55): for a ZIP,
require a `.csv` member and read the first one; otherwise read the bytes as
CSV; every underlying failure is wrapped into `DataProcessorError`. -/
def read_trip_data_file : TripFile → Except DPError Frame
  | .zipFile name entries =>
      match entries.filter (fun e => strEndsWith e.1 ".csv") with
      | [] => .error (.readError name .noCsvInZip)
      | e :: _ => (pdReadCsvBytes e.2).mapError (.readError name)
  | .csvFile name bs => (pdReadCsvBytes bs).mapError (.readError name)

/-! ### Combining trip data
(`combine_trip_data`, data_processor.py lines 130-172)

The coercion statements of `standardize_trip_schema` and `pd.concat` raise
uncaught exceptions when column sanitization or renaming has produced
duplicate column labels: `df[col]` then selects a multi-column frame,
which `pd.to_datetime` / `pd.to_numeric` / `Series.map` reject
(ValueError/TypeError), and `pd.concat` refuses to align duplicate labels
across differing headers (InvalidIndexError). `except DataProcessorError`
at line 161 catches none of these, so they abort the whole combine. -/

/-- `df[name] = v` with a constant value: overwrite every column carrying
that label if present (assignment to a duplicated label sets all its
occurrences), else append a new column on the right. -/
def setColumn (f : Frame) (name : String) (v : Cell) : Frame :=
  match f.header.indexOf? name with
  | some _ =>
      { f with rows := f.rows.map (fun r =>
          r.mapIdx (fun i c => if f.header.getD i "" = name then v else c)) }
  | none => { header := f.header ++ [name], rows := f.rows.map (fun r => r ++ [v]) }

/-- Column order of `pd.concat(.., sort=False)` when alignment is needed:
first frame's columns, then unseen columns in order of appearance. -/
def unionHeader (hs : List (List String)) : List String :=
  hs.foldl (fun acc h => acc ++ h.filter (fun c => c ∉ acc)) []

/-- Reindex one row from its own (duplicate-free) header to the target
header, filling missing columns with null. -/
def reindexRow (oldHeader target : List String) (row : List Cell) : List Cell :=
  target.map (fun c =>
    match oldHeader.indexOf? c with
    | some i => row.getD i .nullV
    | none => .nullV)

/-- `pd.concat(frames, ignore_index=True)` on the non-raising inputs:
identical column indexes are stacked verbatim (duplicates included);
otherwise the columns are aligned to their union with missing values
null-filled. -/
def concatFrames (fs : List Frame) : Frame :=
  if fs.all (fun f => decide (f.header = (fs.headD default).header)) then
    { header := (fs.headD default).header, rows := (fs.map Frame.rows).flatten }
  else
    let h := unionHeader (fs.map Frame.header)
    { header := h, rows := (fs.map (fun f => f.rows.map (reindexRow f.header h))).flatten }

/-- Does `pd.concat` raise `InvalidIndexError`? Exactly when column
alignment across differing headers is needed and some frame carries a
duplicated column label. -/
def concatRaises (fs : List Frame) : Bool :=
  (!fs.all (fun f => decide (f.header = (fs.headD default).header)))
    && fs.any (fun f => f.header.any (fun c => decide (1 < f.header.count c)))

/-- The columns selected and coerced by the statements at
data_processor.py lines 99-125, in statement order. -/
def coercion_columns : List String :=
  datetime_columns ++ numeric_columns ++ ["has_stopover"]

/-- The uncaught pandas exceptions of the combine pipeline. -/
inductive PandasExc where
  | coercionOnDupLabel
  | concatOnDupLabel
  deriving DecidableEq, Repr

/-- Does `standardize_trip_schema` raise? Exactly when, after sanitization
and renaming, one of the coerced or mapped columns is duplicated: `df[col]`
is then a two-or-more-column frame and `pd.to_datetime` (ValueError,
before `errors="coerce"` applies), `pd.to_numeric` (TypeError) or the
`.map` call (TypeError) rejects it. -/
def standardizeRaises (df : Frame) : Bool :=
  coercion_columns.any (fun c =>
    decide (1 < (applyMappings (df.header.map sanitizeColumn)).count c))

/-- `standardize_trip_schema` with its exception behaviour: the uncaught
error on a duplicated coerced label, the pure result otherwise. -/
def standardize_trip_schema_checked (df : Frame) : Except PandasExc Frame :=
  if standardizeRaises df then .error .coercionOnDupLabel
  else .ok (standardize_trip_schema df)

/-- Everything `combine_trip_data` can raise: its own typed
`DataProcessorError`s, or an uncaught pandas exception escaping the
function. -/
inductive CombineExc where
  | dp (e : DPError)
  | pandas (e : PandasExc)
  deriving DecidableEq, Repr

/-- The value of one successful loop iteration of `combine_trip_data`
(when the coercion steps do not raise): read the file, standardize the
schema, tag the rows with the source file's name. -/
def processFile (f : TripFile) : Except DPError Frame :=
  (read_trip_data_file f).map (fun df =>
    setColumn (standardize_trip_schema df) "source_file" (.str f.fileName))

/-- One iteration of `combine_trip_data`'s `try` block, with its exception
behaviour: `.ok none` when the read raised the caught
`DataProcessorError`, the uncaught pandas exception when the
standardization raised, the tagged frame otherwise. -/
def processFileChecked (f : TripFile) : Except PandasExc (Option Frame) :=
  match read_trip_data_file f with
  | .error _ => .ok none
  | .ok df =>
      (standardize_trip_schema_checked df).map (fun sdf =>
        some (setColumn sdf "source_file" (.str f.fileName)))

/-- The accumulation loop of `combine_trip_data`: a `DataProcessorError`
from the read is caught and the file skipped; an uncaught pandas exception
from the standardization aborts the whole loop. -/
def combineLoopChecked : List TripFile → List Frame → Except PandasExc (List Frame)
  | [], acc => .ok acc
  | f :: rest, acc =>
      match processFileChecked f with
      | .error e => .error e
      | .ok none => combineLoopChecked rest acc
      | .ok (some fr) => combineLoopChecked rest (acc ++ [fr])

/-- `combine_trip_data` (data_processor.py lines 130-172): error on an
empty input list, read each file skipping typed failures (uncaught pandas
exceptions abort), error when nothing was read, otherwise concatenate —
which itself can raise on duplicate labels needing alignment. -/
def combine_trip_data (files : List TripFile) : Except CombineExc Frame :=
  if files.isEmpty then .error (.dp .noFilesProvided)
  else
    match combineLoopChecked files [] with
    | .error e => .error (.pandas e)
    | .ok good =>
        if good.isEmpty then .error (.dp .noFilesRead)
        else if concatRaises good then .error (.pandas .concatOnDupLabel)
        else .ok (concatFrames good)

/-- Does this file read successfully into a frame whose standardized column
index is duplicate-free? Readable files violating this make the combine
pipeline hit an uncaught pandas exception. -/
def standardizesWithoutDup (f : TripFile) : Bool :=
  match read_trip_data_file f with
  | .ok df => decide ((standardize_trip_schema df).header.Nodup)
  | .error _ => true

/-- C1's Latin-1 file: header `a`, one data row containing the byte `0xE9`
(`é` in Latin-1), which is invalid as UTF-8. -/
def latinOneBytes : List Nat := [97, 10, 233, 10]

/-- C2's duplicate-label file: perfectly readable, but the headers
`departure` and `departure ` (trailing space) both sanitize to `departure`
and are then both renamed to `departure_time`, so `pd.to_datetime`
receives a two-column frame and raises an uncaught ValueError. -/
def dupHeaderCsvBytes : List Nat :=
  "departure,departure \n2023-01-02,2023-01-03\n".toList.map Char.toNat

/-- A well-formed UTF-8 CSV file: header `a,b` and two data rows. -/
def sampleCsvBytes : List Nat := "a,b\n1,2\n3,hi\n".toList.map Char.toNat

/-! ### Saving to Parquet
(`save_to_parquet`, data_processor.py lines 175-207) -/

/-- What a successful `save_to_parquet` call produces: the returned path,
the frame handed to `df.to_parquet` (written verbatim), the codec used, and
the row/column counts it reports. The on-disk byte size is a physical
quantity outside the embedding. -/
structure ParquetWrite where
  path : String
  written : Frame
  compression : String
  reportedRows : Nat
  reportedCols : Nat
  deriving DecidableEq, Repr

/-- Exceptions escaping `save_to_parquet`: the wrapped
`DataProcessorError("Failed to save Parquet file: ...")` from inside the
`try` block, or the unwrapped `OSError` from the `mkdir` call that sits
before it. -/
inductive SaveErr where
  | saveError
  | osError
  deriving DecidableEq, Repr

/-- `save_to_parquet` (data_processor.py lines 175-207). Whether the mkdir
of the parent directory and the parquet serialization succeed is decided by
the environment, passed in as two oracle booleans; the dataframe itself is
handed to `df.to_parquet` unchanged. -/
def save_to_parquet (df : Frame) (output_path : String)
    (compression : String := "snappy") (mkdirOk : Bool := true)
    (writeOk : Bool := true) : Except SaveErr ParquetWrite :=
  if mkdirOk = false then .error .osError
  else if writeOk then
    .ok { path := output_path, written := df, compression := compression,
          reportedRows := df.rows.length, reportedCols := df.header.length }
  else .error .saveError

/-- Modelled from the spec: coercion of every `datetime64[ns]` cell down to
microsecond precision (truncating the sub-microsecond part), which the spec
says happens before writing. Used only to compare with the code. -/
def coerceTimestampsMicro (df : Frame) : Frame :=
  { df with rows := df.rows.map (fun r => r.map (fun c =>
      match c with
      | .ts t => .ts (1000 * (t / 1000))
      | c => c)) }

/-- A frame holding one nanosecond-precision timestamp that microsecond
coercion would change. -/
def nsFrame : Frame := { header := ["departure_time"], rows := [[.ts 1500]] }

/-! ### Mutation model for `standardize_trip_schema` (claim C10)

Python dataframes are heap objects; a variable is a reference. The heap is
a list of frames, references are indices, and each statement of
`standardize_trip_schema` either mutates the frame a reference points to
(`df.columns = ...`, `df[col] = ...`) or rebinds the local variable to a
freshly allocated frame (`df.copy()`, `df.rename(...)`). -/

/-- A heap of dataframes. Reads outside the heap give the empty frame. -/
abbrev Heap := List Frame

/-- Read the frame a reference points to. -/
def hget (h : Heap) (r : Nat) : Frame := h.getD r default

/-- Overwrite the frame a reference points to (in-place mutation). -/
def hset (h : Heap) (r : Nat) (f : Frame) : Heap := h.set r f

/-- Allocate a fresh frame, returning the new heap and its reference. -/
def halloc (h : Heap) (f : Frame) : Heap × Nat := (h ++ [f], h.length)

/-- One iteration of the rename loop on the heap: `df.rename(columns={old:
new})` allocates a new frame with the renamed column index and the local
variable is rebound to it; the previous frame is not written. -/
def renameStepHeap (st : Heap × Nat) (p : String × String) : Heap × Nat :=
  let f := hget st.1 st.2
  if p.1 ∈ f.header ∧ p.2 ∉ f.header then
    halloc st.1 { f with header := f.header.map (fun c => if c = p.1 then p.2 else c) }
  else st

/-- In-place column update `df[col] = g(df[col])` guarded by presence of
the column (a real mutation of the referenced frame). -/
def setColumnHeap (st : Heap × Nat) (name : String) (g : Cell → Cell) : Heap × Nat :=
  (hset st.1 st.2 (mapColumnAt (hget st.1 st.2) name g), st.2)

/-- The statements of `standardize_trip_schema` after the column-index
assignment, on the heap: the rename loop (rebinding to fresh frames), then
the in-place column coercions and the boolean mapping. -/
def standardizeOnHeap (st1 : Heap × Nat) : Heap × Nat :=
  let st2 := column_mappings.foldl renameStepHeap st1
  let st3 := datetime_columns.foldl (fun st c => setColumnHeap st c toDatetimeCoerce) st2
  let st4 := numeric_columns.foldl (fun st c => setColumnHeap st c toNumericCoerce) st3
  setColumnHeap st4 "has_stopover" mapStopover

/-- `standardize_trip_schema` with Python's aliasing made explicit:
`df = df.copy()` allocates, the column-index assignment and the column
coercions mutate only the copy, and the renames rebind the local variable
to freshly allocated frames. Returns the final heap and the reference to
the returned frame. -/
def standardize_trip_schema_heap (h : Heap) (dfRef : Nat) : Heap × Nat :=
  let st0 := halloc h (hget h dfRef)
  standardizeOnHeap
    (hset st0.1 st0.2
      { hget st0.1 st0.2 with header := (hget st0.1 st0.2).header.map sanitizeColumn },
     st0.2)

/-! ### Offline bundle restoration
(`_extract_bundle_subdir` and `restore_trip_data_from_bundle`,
data_downloader.py lines 227-361) -/

/-- `PurePosixPath(name).parts` for the relative forward-slash paths the
bundle stores: split on `/`, dropping empty segments. -/
def posixParts (name : String) : List String :=
  ((splitOnChar '/' name.toList).filter (fun p => p ≠ [])).map String.mk

/-- `ZipInfo.is_dir()`: the stored member name ends with a slash. -/
def zipIsDir (name : String) : Bool := strEndsWith name "/"

/-- `member_path.relative_to(prefix)`: succeeds when the prefix's segments
lead the member's segments (an absolute member path never matches the
relative prefix), returning the remaining segments; the `ValueError` case
is `none`. -/
def relativeToPrefix (subdir : List String) (name : String) : Option (List String) :=
  if strStartsWith name "/" then none
  else
    let parts := posixParts name
    if subdir.isPrefixOf parts then some (parts.drop subdir.length) else none

/-- The failure modes of bundle restoration: `FileNotFoundError` from
`_ensure_bundle_available`, `RuntimeError` from `_extract_bundle_subdir`
when nothing lies under the prefix, and `RuntimeError` from
`restore_trip_data_from_bundle` when extraction yields no CSV. -/
inductive RestoreErr where
  | fileNotFound
  | noFilesInSubdir
  | noCsvExtracted
  deriving DecidableEq, Repr

/-- The member loop of `_extract_bundle_subdir`: each non-directory member
under the prefix is written at `destination / relative_path` (the byte
streaming itself is not observable here); directory members and members
outside the prefix are skipped. Returns the target paths relative to the
destination, in archive order. -/
def extractLoop (subdir : List String) : List String → List (List String)
  | [] => []
  | name :: rest =>
      if zipIsDir name then extractLoop subdir rest
      else
        match relativeToPrefix subdir name with
        | some relParts => relParts :: extractLoop subdir rest
        | none => extractLoop subdir rest

/-- `_extract_bundle_subdir` (lines 272-320): extract the members under
`archive_subdir`, failing with `RuntimeError` when none matched. -/
def extract_bundle_subdir (archive : List String) (archive_subdir : String) :
    Except RestoreErr (List (List String)) :=
  let extracted := extractLoop (posixParts archive_subdir) archive
  if extracted.isEmpty then .error .noFilesInSubdir
  else .ok extracted

/-- The filesystem state restoration sees: the files currently under the
raw directory (segment paths relative to it), whether the bundle ZIP is
already staged at the volume root (`_resolve_volume_root` is pure path
arithmetic, so only presence matters), whether the project-local bundle
copy exists, and the archive's member names. -/
structure RestoreWorld where
  rawFiles : List (List String)
  volumeHasBundle : Bool
  localBundleExists : Bool
  archive : List String
  deriving DecidableEq, Repr

/-- Join path segments as the path's string form. -/
def joinPath (p : List String) : String := String.intercalate "/" p

/-- Code-point comparison of character lists, as Python compares strings. -/
def charListLe : List Char → List Char → Bool
  | [], _ => true
  | _ :: _, [] => false
  | a :: s, b :: t =>
      if a.toNat < b.toNat then true
      else if b.toNat < a.toNat then false
      else charListLe s t

/-- Insert into a sorted list (ascending by `le`). -/
def insertSorted (le : List String → List String → Bool) (x : List String) :
    List (List String) → List (List String)
  | [] => [x]
  | y :: t => if le x y then x :: y :: t else y :: insertSorted le x t

/-- Insertion sort, the executable model of Python's `sorted`. -/
def insertionSort (le : List String → List String → Bool) :
    List (List String) → List (List String)
  | [] => []
  | x :: t => insertSorted le x (insertionSort le t)

/-- `sorted` on paths: ascending in the string form of the path. -/
def sortPaths (ps : List (List String)) : List (List String) :=
  insertionSort (fun a b => charListLe (joinPath a).toList (joinPath b).toList) ps

/-- `pathlib.PurePath.suffix`: the final extension of the last segment,
empty for names whose only dot is leading or trailing. -/
def pySuffix (name : String) : String :=
  let cs := name.toList
  let n := cs.length
  match ((List.range n).filter (fun i => cs.getD i ' ' = '.')).getLast? with
  | some i => if 0 < i ∧ i + 1 < n then String.mk (cs.drop i) else ""
  | none => ""

/-- `sorted(raw_dir.glob("*.csv"))`: the top-level files of the raw
directory whose name ends in `.csv` (case-sensitively), sorted. -/
def globCsvSorted (rawFiles : List (List String)) : List (List String) :=
  sortPaths (rawFiles.filter (fun p => p.length = 1 ∧ strEndsWith (p.headD "") ".csv"))

/-- `_ensure_bundle_available` (lines 243-269): use the bundle already
staged on the volume, else copy the project-local bundle there, else fail
with `FileNotFoundError`. -/
def ensure_bundle_available (w : RestoreWorld) : Except RestoreErr RestoreWorld :=
  if w.volumeHasBundle then .ok w
  else if w.localBundleExists then .ok { w with volumeHasBundle := true }
  else .error .fileNotFound

/-- What one restoration run produces: the returned (or raised) value, the
filesystem state afterwards, and whether the archive was consulted. -/
structure RestoreOutcome where
  result : Except RestoreErr (List (List String))
  world : RestoreWorld
  didExtract : Bool
  deriving DecidableEq, Repr

/-- `restore_trip_data_from_bundle` (lines 323-361): pre-existing CSVs
short-circuit everything; otherwise stage the bundle, extract
`data/trip_data/raw`, filter to `.csv` (case-insensitively on the suffix),
re-scan the directory when extraction produced none, and fail if still
none. Extracted files overwrite like-named files in the destination. -/
def restore_trip_data_from_bundle (w : RestoreWorld) : RestoreOutcome :=
  let existing := globCsvSorted w.rawFiles
  if existing.isEmpty then
    match ensure_bundle_available w with
    | .error e => ⟨.error e, w, false⟩
    | .ok w1 =>
        match extract_bundle_subdir w1.archive "data/trip_data/raw" with
        | .error e => ⟨.error e, w1, true⟩
        | .ok extracted =>
            let w2 : RestoreWorld :=
              { w1 with rawFiles :=
                  w1.rawFiles.filter (fun p => p ∉ extracted) ++ extracted }
            let csvPaths := sortPaths (extracted.filter
              (fun p => pyLower (pySuffix (p.getLastD "")) = ".csv"))
            let rescued := if csvPaths.isEmpty then globCsvSorted w2.rawFiles else csvPaths
            if rescued.isEmpty then ⟨.error .noCsvExtracted, w2, true⟩
            else ⟨.ok rescued, w2, true⟩
  else ⟨.ok existing, w, false⟩

/-! ### Batch download
(`download_all_trip_data`, data_downloader.py lines 173-224) -/

/-- A scraped file descriptor (the dict built by
`get_available_data_files`). -/
structure FileInfo where
  url : String
  month : String
  year : String
  filename : String
  linkText : String
  deriving DecidableEq, Repr

/-- The error of the scraper model: the uncaught `IndexError` from
`month_names[int(month_num) - 1]`. (Network and HTML-parse failures occur
before any anchor is processed and are outside the per-anchor loop that
the claims describe.) -/
inductive ScrapeErr where
  | indexError
  deriving DecidableEq, Repr

/-- The download loop of `download_all_trip_data`: `existing` is the set of
filenames already present in the output directory; `dl` says whether
`download_file` succeeds on a URL (a failed request raises before the
output file is opened, so it creates no file). A successful download adds
its file to the directory, which later iterations observe. -/
def downloadLoop (dl : String → Bool) (overwrite : Bool) :
    List FileInfo → List String → List String
  | [], _ => []
  | fi :: rest, existing =>
      if fi.filename ∈ existing ∧ overwrite = false then
        fi.filename :: downloadLoop dl overwrite rest existing
      else if dl fi.url then
        fi.filename :: downloadLoop dl overwrite rest (fi.filename :: existing)
      else downloadLoop dl overwrite rest existing

/-- `download_all_trip_data` (lines 173-224): the scrape result is passed
in (a scrape failure propagates to the caller); the loop walks the
descriptors in discovery order. -/
def download_all_trip_data (discovery : Except ScrapeErr (List FileInfo))
    (existing : List String) (overwrite : Bool) (dl : String → Bool) :
    Except ScrapeErr (List String) :=
  discovery.map (fun dataFiles => downloadLoop dl overwrite dataFiles existing)

/-- C6's bundle: the two CSVs under `data/trip_data/raw` (stored out of
order), plus directory members and an out-of-prefix member, restored into
an empty raw directory. -/
def bundleWorld : RestoreWorld :=
  { rawFiles := [], volumeHasBundle := true, localBundleExists := false,
    archive := ["data/", "data/trip_data/", "data/trip_data/raw/",
                "data/trip_data/raw/b.csv", "data/trip_data/raw/a.csv",
                "data/mobi_site/raw/x.md"] }

/-- C5's state: a raw directory already holding CSVs (plus a non-CSV), with
no bundle anywhere. -/
def idemWorld : RestoreWorld :=
  { rawFiles := [["z.csv"], ["y.csv"], ["notes.txt"]],
    volumeHasBundle := false, localBundleExists := false, archive := [] }

/-- C7's descriptors: one already-present file, one downloadable, one whose
download fails. -/
def exDlFiles : List FileInfo :=
  [{ url := "ok", month := "January", year := "2023",
     filename := "mobi_2023_January.csv", linkText := "" },
   { url := "ok2", month := "February", year := "2023",
     filename := "mobi_2023_February.csv", linkText := "" },
   { url := "bad", month := "March", year := "2023",
     filename := "mobi_2023_March.csv", linkText := "" }]

/-- C7's download oracle: the descriptor URLs that succeed. -/
def exDl : String → Bool := fun u => decide (u = "ok") || decide (u = "ok2")

/-! ### Page scraper
(`get_available_data_files`, data_downloader.py lines 25-130) -/

/-- An anchor of the parsed page: its `href` and its stripped visible
text. -/
structure Anchor where
  href : String
  text : String
  deriving DecidableEq, Repr

/-- The `month_names` list of the scraper (also the regex alternation,
alternatives in this order). -/
def monthNames : List String :=
  ["January", "February", "March", "April", "May", "June",
   "July", "August", "September", "October", "November", "December"]

/-- Case-insensitive "starts with" on character lists (`re.IGNORECASE`). -/
def startsWithCI (cs pat : List Char) : Bool :=
  (cs.take pat.length).map Char.toLower = pat.map Char.toLower

/-- Match one month-name alternative at the current position, returning the
raw matched text (`group(1)` keeps the original casing) and the rest. At
most one alternative can match since no month name is a prefix of
another. -/
def matchMonthAt (cs : List Char) : Option (List Char × List Char) :=
  monthNames.findSome? (fun m =>
    let p := m.toList
    if startsWithCI cs p then some (cs.take p.length, cs.drop p.length) else none)

/-- Match `\s+(\d{4})` at the current position, returning the year digits.
Giving back whitespace cannot help the digit group, so the greedy run is
definitive. -/
def matchWsYear (cs : List Char) : Option (List Char) :=
  if (cs.takeWhile pyIsSpace).isEmpty then none
  else
    let rest := cs.dropWhile pyIsSpace
    let ds := rest.take 4
    if ds.length = 4 ∧ ds.all Char.isDigit then some ds else none

/-- `re.search` of the month-name + year pattern over the link text:
earliest matching position wins; where the month matches but the year part
fails, scanning resumes one character later. -/
def searchMonthYear : List Char → Option (String × String)
  | [] => none
  | c :: rest =>
      match matchMonthAt (c :: rest) with
      | some (raw, after) =>
          match matchWsYear after with
          | some ds => some (String.mk raw, String.mk ds)
          | none => searchMonthYear rest
      | none => searchMonthYear rest

/-- Match `(\d{4})[-_]?(\d{2})` at the current position. When a separator
is present but fewer than two digits follow, backtracking to the empty
separator also fails (the separator is not a digit). -/
def matchYmAt (cs : List Char) : Option (String × String) :=
  let y := cs.take 4
  if y.length = 4 ∧ y.all Char.isDigit then
    let rest := cs.drop 4
    let rest2 :=
      match rest with
      | c :: t => if c = '-' ∨ c = '_' then t else rest
      | [] => rest
    let ds := rest2.take 2
    if ds.length = 2 ∧ ds.all Char.isDigit then some (String.mk y, String.mk ds)
    else none
  else none

/-- `re.search` of the year-month pattern over the href. -/
def searchYm : List Char → Option (String × String)
  | [] => none
  | c :: rest =>
      match matchYmAt (c :: rest) with
      | some r => some r
      | none => searchYm rest

/-- Python list indexing: negative indices wrap once from the end;
anything else out of range is an `IndexError` (`none`). -/
def pyListGet {α : Type} (l : List α) (i : Int) : Option α :=
  if 0 ≤ i then l.get? i.toNat
  else if 0 ≤ i + l.length then l.get? (i + l.length).toNat
  else none

/-- `re.search(r"/file/d/([^/]+)", href)`: the first position where the
marker is followed by at least one non-slash character yields the id. -/
def driveFileId : List Char → Option (List Char)
  | [] => none
  | c :: t =>
      if ("/file/d/".toList).isPrefixOf (c :: t) then
        let fid := ((c :: t).drop 8).takeWhile (fun x => x ≠ '/')
        if fid.isEmpty then driveFileId t else some fid
      else driveFileId t

/-- `urllib.parse.urljoin`, restricted to the shapes this page yields: a
link that already carries a scheme is kept, anything else is resolved
against the base URL. (Full RFC 3986 resolution is not exercised by any
claim.) -/
def urljoinModel (base href : String) : String :=
  if containsSub href "://" then href else base ++ href

/-- Build one descriptor dict from an anchor and its extracted month and
year: rewrite `/file/d/<id>/` document links to direct downloads, resolve
other links against the base URL, and synthesize the output filename. -/
def mkFileInfo (baseUrl : String) (a : Anchor) (isGdrive : Bool)
    (month year : String) : FileInfo :=
  let downloadUrl :=
    if isGdrive ∧ containsSub a.href "/file/d/" then
      match driveFileId a.href.toList with
      | some fid =>
          "https://drive.google.com/uc?export=download&id=" ++ String.mk fid
      | none => a.href
    else urljoinModel baseUrl a.href
  { url := downloadUrl, month := month, year := year,
    filename := replaceSpaceUnderscore ("mobi_" ++ year ++ "_" ++ month ++ ".csv"),
    linkText := a.text }

/-- The per-anchor step of the scraper: `none` when the anchor is not a
data link; otherwise the descriptor, or the uncaught `IndexError` when the
href pattern yields a month number above 12. -/
def processAnchor (baseUrl : String) (a : Anchor) :
    Option (Except ScrapeErr FileInfo) :=
  let isGdrive := containsSub a.href "drive.google.com"
  let isCsvOrZip :=
    containsSub (pyLower a.href) ".csv" || containsSub (pyLower a.href) ".zip"
  if isGdrive || isCsvOrZip then
    some
      (match searchMonthYear a.text.toList with
       | some (m, y) => .ok (mkFileInfo baseUrl a isGdrive m y)
       | none =>
           match searchYm a.href.toList with
           | some (y, mn) =>
               match pyListGet monthNames ((digitsToNat mn.toList : Int) - 1) with
               | some m => .ok (mkFileInfo baseUrl a isGdrive m y)
               | none => .error .indexError
           | none => .ok (mkFileInfo baseUrl a isGdrive "Unknown" "Unknown"))
  else none

/-- The anchor loop of `get_available_data_files`: descriptors accumulate
in page order; an `IndexError` aborts the whole call. -/
def scrapeLoop (baseUrl : String) : List Anchor → Except ScrapeErr (List FileInfo)
  | [] => .ok []
  | a :: rest =>
      match processAnchor baseUrl a with
      | none => scrapeLoop baseUrl rest
      | some (.error e) => .error e
      | some (.ok fi) => (scrapeLoop baseUrl rest).map (fun l => fi :: l)

/-- `get_available_data_files` (lines 25-130) on a fetched and parsed page,
given as its anchor list. -/
def get_available_data_files (baseUrl : String) (anchors : List Anchor) :
    Except ScrapeErr (List FileInfo) :=
  scrapeLoop baseUrl anchors

/-- Does this anchor make the scraper raise? Exactly the matching anchors
whose text has no month-name/year pattern and whose href year-month pattern
carries a two-digit month above 12 (for month `00`, Python's negative
indexing silently yields December). -/
def anchorRaises (a : Anchor) : Bool :=
  (containsSub a.href "drive.google.com"
    || (containsSub (pyLower a.href) ".csv" || containsSub (pyLower a.href) ".zip"))
  && (searchMonthYear a.text.toList).isNone
  && (match searchYm a.href.toList with
      | some (_, mn) => decide (12 < digitsToNat mn.toList)
      | none => false)

/-- C8's crashing page: one anchor whose href matches the data-link filter
and whose year-month pattern reads month `56`. -/
def badAnchorPage : List Anchor := [{ href := "x_1234_56.csv", text := "data" }]

/-- A page of well-behaved anchors: a document-sharing link with a month
name in the text, a relative ZIP link dated via its href, a non-data link,
a month-`00` link (which Python's negative indexing sends to December),
and a data link with no date anywhere. -/
def goodAnchorPage : List Anchor :=
  [{ href := "https://drive.google.com/file/d/ABC123/view",
     text := "Mobi trips January 2023" },
   { href := "/files/trips_2023-04.zip", text := "april data" },
   { href := "/about", text := "About us" },
   { href := "data_2023_00.csv", text := "odd" },
   { href := "plain.csv", text := "no date info here" }]

/-! ### GBFS client (gbfs.py) -/

/-- A JSON document. -/
inductive Json where
  | obj (fields : List (String × Json))
  | arr (elems : List Json)
  | str (s : String)
  | num (n : Int)
  | boolV (b : Bool)
  | null
  deriving Repr

/-- Assoc lookup over object fields. -/
def lookupField : List (String × Json) → String → Option Json
  | [], _ => none
  | (a, v) :: t, k => if a = k then some v else lookupField t k

/-- Object key lookup (`data[k]` / `data.get(k)`). -/
def Json.getKey? : Json → String → Option Json
  | .obj fields, k => lookupField fields k
  | _, _ => none

/-- The typed `GBFSClientError` raise sites of gbfs.py. -/
inductive GErr where
  | requestFailed
  | parseFailed
  | missingData
  | noFeeds
  | feedNotFound
  deriving DecidableEq, Repr

/-- Exceptions escaping the client's methods: the typed `GBFSClientError`,
or the untyped `KeyError` from `feed["name"]` / `feed["url"]` on a
malformed discovery entry, which no `except` clause catches. -/
inductive PyExc where
  | gbfs (e : GErr)
  | keyError
  deriving DecidableEq, Repr

/-- What one HTTP GET can come back with. -/
inductive HttpResult where
  | ok (j : Json)
  | netError
  | badJson
  deriving Repr

/-- The network, as a map from URLs to responses. -/
abbrev Http := String → HttpResult

/-- `get_gbfs_feed` (gbfs.py lines 19-45): fetch, parse, and require a
top-level `data` key; transport errors and JSON errors become the typed
error. -/
def get_gbfs_feed (http : Http) (url : String) : Except GErr Json :=
  match http url with
  | .netError => .error .requestFailed
  | .badJson => .error .parseFailed
  | .ok j =>
      match j.getKey? "data" with
      | some _ => .ok j
      | none => .error .missingData

/-- The client's state: its discovery URL and the load-once feed-URL
cache. -/
structure GBFSClient where
  discoveryUrl : String
  feedUrls : Option (List (String × String))
  deriving Repr

/-- `data.get("data", {}).get("en", {}).get("feeds", [])` on the discovery
document. A non-array `feeds` value yields the empty list. -/
def feedsOf (j : Json) : List Json :=
  match (((j.getKey? "data").getD (.obj [])).getKey? "en").getD (.obj [])
      |>.getKey? "feeds" with
  | some (.arr es) => es
  | _ => []

/-- `{feed["name"]: feed["url"] for feed in feeds}`: direct indexing, so an
entry without string `name`/`url` raises the untyped `KeyError`. -/
def buildFeedUrls : List Json → Except PyExc (List (String × String))
  | [] => .ok []
  | e :: rest =>
      match e.getKey? "name", e.getKey? "url" with
      | some (.str n), some (.str u) => (buildFeedUrls rest).map (fun t => (n, u) :: t)
      | _, _ => .error .keyError

/-- Python dict lookup on the comprehension result: later entries override
earlier ones. -/
def lookupFeedUrl (l : List (String × String)) (k : String) : Option String :=
  match l with
  | [] => none
  | (a, b) :: t =>
      match lookupFeedUrl t k with
      | some v => some v
      | none => if a = k then some b else none

/-- `_get_feed_urls` (lines 75-91): serve the cache when loaded, else fetch
the discovery document, extract the feed list (failing when empty), build
the name-to-URL dict and cache it. -/
def getFeedUrls (http : Http) (c : GBFSClient) :
    GBFSClient × Except PyExc (List (String × String)) :=
  match c.feedUrls with
  | some urls => (c, .ok urls)
  | none =>
      match get_gbfs_feed http c.discoveryUrl with
      | .error e => (c, .error (.gbfs e))
      | .ok j =>
          let es := feedsOf j
          if es.isEmpty then (c, .error (.gbfs .noFeeds))
          else
            match buildFeedUrls es with
            | .error e => (c, .error e)
            | .ok urls => ({ c with feedUrls := some urls }, .ok urls)

/-- `get_feed` (lines 102-123): resolve the feed name against the (cached)
dict, failing with the typed error when absent, then fetch it. -/
def get_feed (http : Http) (c : GBFSClient) (name : String) :
    GBFSClient × Except PyExc Json :=
  match getFeedUrls http c with
  | (c1, .error e) => (c1, .error e)
  | (c1, .ok urls) =>
      match lookupFeedUrl urls name with
      | none => (c1, .error (.gbfs .feedNotFound))
      | some u => (c1, (get_gbfs_feed http u).mapError PyExc.gbfs)

/-- `get_station_information` (lines 125-132). -/
def get_station_information (http : Http) (c : GBFSClient) :
    GBFSClient × Except PyExc Json :=
  get_feed http c "station_information"

/-- `get_station_status` (lines 134-141). -/
def get_station_status (http : Http) (c : GBFSClient) :
    GBFSClient × Except PyExc Json :=
  get_feed http c "station_status"

/-- The empty default `{"data": {"alerts": []}}`. -/
def alertsDefault : Json := .obj [("data", .obj [("alerts", .arr [])])]

/-- The empty default `{"data": {"bikes": []}}`. -/
def bikesDefault : Json := .obj [("data", .obj [("bikes", .arr [])])]

/-- `get_system_alerts` (lines 152-163): a typed `GBFSClientError` from the
feed fetch is converted to the empty alerts document; anything untyped
still propagates. -/
def get_system_alerts (http : Http) (c : GBFSClient) :
    GBFSClient × Except PyExc Json :=
  match get_feed http c "system_alerts" with
  | (c1, .ok j) => (c1, .ok j)
  | (c1, .error (.gbfs _)) => (c1, .ok alertsDefault)
  | (c1, .error .keyError) => (c1, .error .keyError)

/-- `get_free_bike_status` (lines 165-179): same conversion with the empty
bikes document. -/
def get_free_bike_status (http : Http) (c : GBFSClient) :
    GBFSClient × Except PyExc Json :=
  match get_feed http c "free_bike_status" with
  | (c1, .ok j) => (c1, .ok j)
  | (c1, .error (.gbfs _)) => (c1, .ok bikesDefault)
  | (c1, .error .keyError) => (c1, .error .keyError)

/-- C9's network: a discovery document advertising `system_alerts`,
`free_bike_status` and `station_information`, all three of whose fetches
fail with a transport error. -/
def exHttp : Http := fun u =>
  if u = "https://disc" then
    .ok (.obj [("data", .obj [("en", .obj [("feeds", .arr
      [.obj [("name", .str "system_alerts"), ("url", .str "https://alerts")],
       .obj [("name", .str "free_bike_status"), ("url", .str "https://bikes")],
       .obj [("name", .str "station_information"), ("url", .str "https://si")]])])])])
  else .netError

/-- C9's freshly constructed client. -/
def exClient : GBFSClient := { discoveryUrl := "https://disc", feedUrls := none }

end Mobi

namespace Mobi

/-- C3 counterexample: the code's sanitization does not prefix an underscore
when the result starts with a digit and does not default the empty header to
`"column"`; it also disagrees with the spec's run-collapsing description. -/
theorem sanitizeColumn_differs_from_spec :
    sanitizeColumn "2023column" = "2023column" ∧
    sanitizeColumn "2023column" ≠ "_2023column" ∧
    sanitizeColumn "" = "" ∧
    sanitizeColumn "" ≠ "column" ∧
    sanitizeColumn "a  b" ≠ sanitizeColumnSpec "a  b" := by
  decide

/-- C3 (amended): column sanitization is the total deterministic map
strip-then-lowercase-then-replace-each-space-by-underscore; `"Trip ID "`
maps to `"trip_id"`, `"2023column"` stays `"2023column"`, `""` stays `""`,
and no output ever contains a space character. -/
theorem sanitizeColumn_spec :
    sanitizeColumn "Trip ID " = "trip_id" ∧
    sanitizeColumn "2023column" = "2023column" ∧
    sanitizeColumn "" = "" ∧
    ∀ s : String, ' ' ∉ (sanitizeColumn s).toList := by
  refine ⟨by decide, by decide, by decide, ?_⟩
  intro s hmem
  have h : ∀ c ∈ ((pyLower (pyStrip s)).toList.map
      (fun c => if c = ' ' then '_' else c)), c ≠ ' ' := by
    intro c hc
    rcases List.mem_map.mp hc with ⟨a, _, rfl⟩
    by_cases ha : a = ' ' <;> simp [ha]
  exact h ' ' (by simpa [sanitizeColumn, replaceSpaceUnderscore] using hmem) rfl

end Mobi

namespace Mobi

theorem processFile_isOk (f : TripFile) :
    (processFile f).isOk = (read_trip_data_file f).isOk := by
  cases h : read_trip_data_file f <;>
    simp [processFile, h, Except.map, Except.isOk, Except.toBool]

theorem processFile_toOption_isSome (f : TripFile) :
    ((processFile f).toOption).isSome = (read_trip_data_file f).isOk := by
  cases h : read_trip_data_file f <;>
    simp [processFile, h, Except.map, Except.toOption, Except.isOk, Except.toBool]

end Mobi

namespace Mobi

/-- C1 counterexample: a CSV file whose bytes are invalid UTF-8 but decode
under Latin-1 to a well-formed one-row CSV; `read_trip_data_file` does not
fall back to Latin-1 but fails at once with the wrapped decode error. -/
theorem read_trip_data_file_no_latin1_fallback :
    utf8Decode latinOneBytes = none ∧
    (parseCsvFrame ((latin1Decode latinOneBytes).map Char.ofNat)).isOk = true ∧
    read_trip_data_file (.csvFile "mobi_2023_January.csv" latinOneBytes)
      = .error (.readError "mobi_2023_January.csv" .unicodeDecode) := by
  decide

/-- C1 (amended): `read_trip_data_file` attempts a single UTF-8 decode
(pandas' default); on any CSV whose bytes are not valid UTF-8 it raises
`DataProcessorError` wrapping the decode error, with no Latin-1 fallback
and no malformed-row skipping. -/
theorem read_trip_data_file_utf8_only (name : String) (bs : List Nat)
    (h : utf8Decode bs = none) :
    read_trip_data_file (.csvFile name bs)
      = .error (.readError name .unicodeDecode) := by
  simp [read_trip_data_file, pdReadCsvBytes, h, Except.mapError]

/-- Witness for `read_trip_data_file_utf8_only` at the Latin-1 file. -/
theorem read_trip_data_file_utf8_only_witness :
    utf8Decode latinOneBytes = none ∧
    read_trip_data_file (.csvFile "x.csv" latinOneBytes)
      = .error (.readError "x.csv" .unicodeDecode) :=
  ⟨by decide, read_trip_data_file_utf8_only "x.csv" latinOneBytes (by decide)⟩

end Mobi

namespace Mobi

/-- C4 counterexample: a successful save hands the frame to the parquet
writer verbatim; the nanosecond timestamp 1500 is not coerced to
microsecond precision as the claim states. -/
theorem save_to_parquet_no_micro_coercion :
    (save_to_parquet nsFrame "out.parquet" "snappy" true true).map ParquetWrite.written
      = .ok nsFrame ∧
    nsFrame ≠ coerceTimestampsMicro nsFrame := by
  decide

/-- C4 (amended): `save_to_parquet` writes the dataframe unchanged (no
timestamp coercion) with the chosen codec (the `compression` parameter
defaults to `"snappy"` in the definition), reports the row and column
counts on success, raises the wrapped save error when the write or
serialization fails, and lets a parent-directory creation failure escape
unwrapped. -/
theorem save_to_parquet_spec (df : Frame) (path comp : String) (wr : Bool) :
    save_to_parquet df path comp true true
      = .ok { path := path, written := df, compression := comp,
              reportedRows := df.rows.length, reportedCols := df.header.length } ∧
    save_to_parquet df path comp true false = .error .saveError ∧
    save_to_parquet df path comp false wr = .error .osError :=
  ⟨rfl, rfl, rfl⟩

/-! Heap lemmas for the mutation model. -/

theorem hget_halloc_self {h : Heap} {f : Frame} :
    hget (halloc h f).1 (halloc h f).2 = f := by
  simp [hget, halloc, List.getD]

theorem hget_halloc_lt {h : Heap} {f : Frame} {i : Nat} (hi : i < h.length) :
    hget (halloc h f).1 i = hget h i := by
  simp [hget, halloc, List.getD, List.getElem?_append_left hi]

theorem hget_hset_self {h : Heap} {r : Nat} {f : Frame} (hr : r < h.length) :
    hget (hset h r f) r = f := by
  simp [hget, hset, List.getD, List.getElem?_set_self, hr]

theorem hget_hset_ne {h : Heap} {r : Nat} {f : Frame} {i : Nat} (hne : i ≠ r) :
    hget (hset h r f) i = hget h i := by
  simp [hget, hset, List.getD, List.getElem?_set_ne (fun he => hne he.symm)]

theorem foldl_renameStepHeap (dfRef : Nat) (ps : List (String × String)) :
    ∀ st : Heap × Nat, dfRef < st.2 → st.2 < st.1.length →
      dfRef < (ps.foldl renameStepHeap st).2 ∧
      (ps.foldl renameStepHeap st).2 < (ps.foldl renameStepHeap st).1.length ∧
      hget (ps.foldl renameStepHeap st).1 dfRef = hget st.1 dfRef ∧
      hget (ps.foldl renameStepHeap st).1 (ps.foldl renameStepHeap st).2
        = { hget st.1 st.2 with header := ps.foldl applyMapping (hget st.1 st.2).header } := by
  induction ps with
  | nil => intro st h1 h2; exact ⟨h1, h2, rfl, rfl⟩
  | cons p rest ih =>
      intro st h1 h2
      by_cases hc : p.1 ∈ (hget st.1 st.2).header ∧ p.2 ∉ (hget st.1 st.2).header
      · have hstep : renameStepHeap st p
            = halloc st.1 { hget st.1 st.2 with
                header := (hget st.1 st.2).header.map (fun c => if c = p.1 then p.2 else c) } := by
          simp [renameStepHeap, hc]
        have hd : dfRef < st.1.length := h1.trans h2
        have h1n : dfRef < (renameStepHeap st p).2 := by rw [hstep]; exact hd
        have h2n : (renameStepHeap st p).2 < (renameStepHeap st p).1.length := by
          rw [hstep]; simp [halloc]
        rcases ih (renameStepHeap st p) h1n h2n with ⟨i1, i2, i3, i4⟩
        refine ⟨by simpa [List.foldl_cons] using i1, by simpa [List.foldl_cons] using i2, ?_, ?_⟩
        · rw [List.foldl_cons, i3, hstep, hget_halloc_lt hd]
        · rw [List.foldl_cons, i4, hstep, hget_halloc_self]
          have happ : applyMapping (hget st.1 st.2).header p
              = (hget st.1 st.2).header.map (fun c => if c = p.1 then p.2 else c) := by
            simp [applyMapping, hc]
          simp [List.foldl_cons, happ]
      · have hstep : renameStepHeap st p = st := by
          simp [renameStepHeap, hc]
        have happ : applyMapping (hget st.1 st.2).header p = (hget st.1 st.2).header := by
          simp [applyMapping, hc]
        rcases ih st h1 h2 with ⟨i1, i2, i3, i4⟩
        exact ⟨by simpa [List.foldl_cons, hstep] using i1,
               by simpa [List.foldl_cons, hstep] using i2,
               by simpa [List.foldl_cons, hstep] using i3,
               by simpa [List.foldl_cons, hstep, happ] using i4⟩

theorem foldl_setColumnHeap (dfRef : Nat) (g : Cell → Cell) (names : List String) :
    ∀ st : Heap × Nat, dfRef < st.2 → st.2 < st.1.length →
      (names.foldl (fun st c => setColumnHeap st c g) st).2 = st.2 ∧
      (names.foldl (fun st c => setColumnHeap st c g) st).1.length = st.1.length ∧
      hget (names.foldl (fun st c => setColumnHeap st c g) st).1 dfRef = hget st.1 dfRef ∧
      hget (names.foldl (fun st c => setColumnHeap st c g) st).1
          (names.foldl (fun st c => setColumnHeap st c g) st).2
        = names.foldl (fun f c => mapColumnAt f c g) (hget st.1 st.2) := by
  induction names with
  | nil => intro st h1 h2; exact ⟨rfl, rfl, rfl, rfl⟩
  | cons nm rest ih =>
      intro st h1 h2
      have hne : dfRef ≠ st.2 := Nat.ne_of_lt h1
      have hstep2 : (setColumnHeap st nm g).2 = st.2 := rfl
      have hstepl : (setColumnHeap st nm g).1.length = st.1.length := by
        simp [setColumnHeap, hset]
      have h1n : dfRef < (setColumnHeap st nm g).2 := h1
      have h2n : (setColumnHeap st nm g).2 < (setColumnHeap st nm g).1.length := by
        rw [hstep2, hstepl]; exact h2
      rcases ih (setColumnHeap st nm g) h1n h2n with ⟨i1, i2, i3, i4⟩
      refine ⟨by simpa [List.foldl_cons, hstep2] using i1,
              by simpa [List.foldl_cons, hstepl] using i2, ?_, ?_⟩
      · rw [List.foldl_cons, i3]
        exact hget_hset_ne hne
      · rw [List.foldl_cons, i4, hstep2]
        have : hget (setColumnHeap st nm g).1 st.2 = mapColumnAt (hget st.1 st.2) nm g :=
          hget_hset_self h2
        rw [this]
        rfl

end Mobi

namespace Mobi

theorem standardizeOnHeap_facts (dfRef : Nat) (st : Heap × Nat)
    (h1 : dfRef < st.2) (h2 : st.2 < st.1.length) :
    hget (standardizeOnHeap st).1 dfRef = hget st.1 dfRef ∧
    hget (standardizeOnHeap st).1 (standardizeOnHeap st).2
      = standardizeTail (hget st.1 st.2) := by
  simp only [standardizeOnHeap]
  obtain ⟨r1, r2, r3, r4⟩ := foldl_renameStepHeap dfRef column_mappings st h1 h2
  generalize hg2 : List.foldl renameStepHeap st column_mappings = st2 at r1 r2 r3 r4 ⊢
  obtain ⟨d1, d2, d3, d4⟩ :=
    foldl_setColumnHeap dfRef toDatetimeCoerce datetime_columns st2 r1 r2
  generalize hg3 : List.foldl (fun st c => setColumnHeap st c toDatetimeCoerce) st2
      datetime_columns = st3 at d1 d2 d3 d4 ⊢
  have h31 : dfRef < st3.2 := by rw [d1]; exact r1
  have h32 : st3.2 < st3.1.length := by rw [d1, d2]; exact r2
  obtain ⟨n1, n2, n3, n4⟩ :=
    foldl_setColumnHeap dfRef toNumericCoerce numeric_columns st3 h31 h32
  generalize hg4 : List.foldl (fun st c => setColumnHeap st c toNumericCoerce) st3
      numeric_columns = st4 at n1 n2 n3 n4 ⊢
  have h41 : dfRef < st4.2 := by rw [n1]; exact h31
  have h42 : st4.2 < st4.1.length := by rw [n1, n2]; exact h32
  constructor
  · exact (hget_hset_ne (Nat.ne_of_lt h41)).trans (by rw [n3, d3, r3])
  · have e2 : hget (setColumnHeap st4 "has_stopover" mapStopover).1
          (setColumnHeap st4 "has_stopover" mapStopover).2
        = mapColumnAt (hget st4.1 st4.2) "has_stopover" mapStopover :=
      hget_hset_self h42
    rw [e2, n4, d4, r4]
    simp only [standardizeTail, applyMappings]

end Mobi

namespace Mobi

theorem standardizeOnHeap_hset_facts (dfRef : Nat) (h0 : Heap) (r : Nat) (fr : Frame)
    (h1 : dfRef < r) (h2 : r < h0.length) :
    hget (standardizeOnHeap (hset h0 r fr, r)).1 dfRef = hget h0 dfRef ∧
    hget (standardizeOnHeap (hset h0 r fr, r)).1 (standardizeOnHeap (hset h0 r fr, r)).2
      = standardizeTail fr := by
  have h2l : r < (hset h0 r fr).length := by simpa [hset] using h2
  obtain ⟨f1, f2⟩ := standardizeOnHeap_facts dfRef (hset h0 r fr, r) h1 h2l
  refine ⟨f1.trans (hget_hset_ne (Nat.ne_of_lt h1)), f2.trans ?_⟩
  rw [hget_hset_self h2]

/-- C10: `standardize_trip_schema` never mutates its argument. In the
aliasing model the caller's frame is unchanged after the call (same
columns, values and dtypes), and the returned reference holds exactly the
pure standardization of the input, so all renaming and coercion effects
live only in the returned copy. -/
theorem standardize_trip_schema_no_mutation (h : Heap) (dfRef : Nat)
    (hlt : dfRef < h.length) :
    hget (standardize_trip_schema_heap h dfRef).1 dfRef = hget h dfRef ∧
    hget (standardize_trip_schema_heap h dfRef).1 (standardize_trip_schema_heap h dfRef).2
      = standardize_trip_schema (hget h dfRef) := by
  simp only [standardize_trip_schema_heap]
  obtain ⟨g1, g2⟩ := standardizeOnHeap_hset_facts dfRef (halloc h (hget h dfRef)).1
      (halloc h (hget h dfRef)).2
      { hget (halloc h (hget h dfRef)).1 (halloc h (hget h dfRef)).2 with
          header := (hget (halloc h (hget h dfRef)).1
            (halloc h (hget h dfRef)).2).header.map sanitizeColumn }
      hlt (by simp [halloc])
  rw [g1, g2, hget_halloc_lt hlt, hget_halloc_self]
  exact ⟨rfl, rfl⟩

/-- Witness for `standardize_trip_schema_no_mutation`: a singleton heap
holding a raw frame is unchanged by the call. -/
theorem standardize_trip_schema_no_mutation_witness :
    0 < ([⟨["Departure", "Stopover"], [[Cell.str "2023-01-02", Cell.str "Yes"]]⟩] : Heap).length ∧
    hget (standardize_trip_schema_heap
        [⟨["Departure", "Stopover"], [[Cell.str "2023-01-02", Cell.str "Yes"]]⟩] 0).1 0
      = hget [⟨["Departure", "Stopover"], [[Cell.str "2023-01-02", Cell.str "Yes"]]⟩] 0 :=
  ⟨by decide,
   (standardize_trip_schema_no_mutation
      [⟨["Departure", "Stopover"], [[Cell.str "2023-01-02", Cell.str "Yes"]]⟩] 0
      (by decide)).1⟩

end Mobi

namespace Mobi

/-- C5: when the raw directory already holds at least one CSV, restoration
returns the sorted pre-existing CSV list, consults no archive and leaves
the filesystem untouched, and a second call returns the very same
outcome. -/
theorem restore_trip_data_idempotent (w : RestoreWorld)
    (hne : globCsvSorted w.rawFiles ≠ []) :
    restore_trip_data_from_bundle w
      = ⟨.ok (globCsvSorted w.rawFiles), w, false⟩ ∧
    restore_trip_data_from_bundle (restore_trip_data_from_bundle w).world
      = restore_trip_data_from_bundle w := by
  have hie : (globCsvSorted w.rawFiles).isEmpty = false := by
    simp [List.isEmpty_iff, hne]
  have h1 : restore_trip_data_from_bundle w
      = ⟨.ok (globCsvSorted w.rawFiles), w, false⟩ := by
    simp [restore_trip_data_from_bundle, hie]
  refine ⟨h1, ?_⟩
  rw [h1]
  exact h1

/-- Witness for `restore_trip_data_idempotent`: a directory with two CSVs
already present. -/
theorem restore_trip_data_idempotent_witness :
    globCsvSorted idemWorld.rawFiles ≠ [] ∧
    restore_trip_data_from_bundle idemWorld
      = ⟨.ok (globCsvSorted idemWorld.rawFiles), idemWorld, false⟩ :=
  ⟨by decide, (restore_trip_data_idempotent idemWorld (by decide)).1⟩

theorem extractLoop_eq (subdir : List String) (names : List String) :
    extractLoop subdir names
      = names.filterMap (fun n =>
          if zipIsDir n then none else relativeToPrefix subdir n) := by
  induction names with
  | nil => rfl
  | cons n rest ih =>
      by_cases hd : zipIsDir n
      · simp [extractLoop, hd, ih]
      · cases hr : relativeToPrefix subdir n with
        | some rel => simp [extractLoop, hd, hr, ih]
        | none => simp [extractLoop, hd, hr, ih]

/-- C6: extraction takes exactly the non-directory members whose
slash-separated path lies under the prefix, emitting for each its segments
below the prefix in archive order, errors when there are none; restoring
the example bundle into an empty directory yields exactly the sorted list
`a.csv`, `b.csv` of top-level targets. -/
theorem extract_bundle_subdir_spec (archive : List String) (subdir : String) :
    extract_bundle_subdir archive subdir
      = (if (archive.filterMap (fun n =>
            if zipIsDir n then none
            else relativeToPrefix (posixParts subdir) n)).isEmpty
         then .error .noFilesInSubdir
         else .ok (archive.filterMap (fun n =>
            if zipIsDir n then none
            else relativeToPrefix (posixParts subdir) n))) ∧
    (restore_trip_data_from_bundle bundleWorld).result = .ok [["a.csv"], ["b.csv"]] ∧
    (restore_trip_data_from_bundle bundleWorld).didExtract = true := by
  refine ⟨?_, by decide, by decide⟩
  simp [extract_bundle_subdir, extractLoop_eq]

theorem downloadLoop_eq (dl : String → Bool) (ov : Bool) (files : List FileInfo) :
    ∀ existing : List String,
      files.Pairwise (fun a b => a.filename ≠ b.filename) →
      downloadLoop dl ov files existing
        = files.filterMap (fun fi =>
            if (fi.filename ∈ existing ∧ ov = false) ∨ dl fi.url then some fi.filename
            else none) := by
  induction files with
  | nil => intro existing _; rfl
  | cons fi rest ih =>
      intro existing hp
      rw [List.pairwise_cons] at hp
      obtain ⟨hni, hp'⟩ := hp
      by_cases h1 : fi.filename ∈ existing ∧ ov = false
      · obtain ⟨hmem, hov⟩ := h1
        subst hov
        have hl : downloadLoop dl false (fi :: rest) existing
            = fi.filename :: downloadLoop dl false rest existing := by
          simp [downloadLoop, hmem]
        rw [hl, ih existing hp', List.filterMap_cons]
        simp [hmem]
      · by_cases h2 : dl fi.url
        · have hcong : rest.filterMap (fun x =>
              if (x.filename ∈ fi.filename :: existing ∧ ov = false) ∨ dl x.url
              then some x.filename else none)
              = rest.filterMap (fun x =>
                  if (x.filename ∈ existing ∧ ov = false) ∨ dl x.url
                  then some x.filename else none) := by
            refine List.filterMap_congr (fun x hx => ?_)
            have hxne : x.filename ≠ fi.filename := (hni x hx).symm
            simp [List.mem_cons, hxne]
          have hl : downloadLoop dl ov (fi :: rest) existing
              = fi.filename :: downloadLoop dl ov rest (fi.filename :: existing) := by
            simp [downloadLoop, h1, h2]
          rw [hl, ih (fi.filename :: existing) hp', hcong, List.filterMap_cons]
          simp [h1, h2]
        · have hl : downloadLoop dl ov (fi :: rest) existing
              = downloadLoop dl ov rest existing := by
            simp [downloadLoop, h1, h2]
          rw [hl, ih existing hp', List.filterMap_cons]
          simp [h1, h2]

/-- C7: with distinct target filenames, the batch download returns exactly
the descriptors' paths that are already present (skipped unless overwrite
is requested, but still included) or whose download succeeds, in discovery
order; per-file failures are passed over, and when every file is absent
and every download fails the result is the empty list with no exception. -/
theorem download_all_trip_data_spec (files : List FileInfo) (existing : List String)
    (ov : Bool) (dl : String → Bool)
    (hnd : files.Pairwise (fun a b => a.filename ≠ b.filename)) :
    download_all_trip_data (.ok files) existing ov dl
      = .ok (files.filterMap (fun fi =>
          if (fi.filename ∈ existing ∧ ov = false) ∨ dl fi.url then some fi.filename
          else none)) ∧
    ((∀ fi ∈ files, dl fi.url = false ∧ fi.filename ∉ existing) →
      download_all_trip_data (.ok files) existing ov dl = .ok []) := by
  have h1 := downloadLoop_eq dl ov files existing hnd
  constructor
  · simp [download_all_trip_data, Except.map, h1]
  · intro hall
    simp [download_all_trip_data, Except.map, h1]
    intro fi hfi
    rcases hall fi hfi with ⟨hdl, hmem⟩
    exact ⟨fun hm => absurd hm hmem, hdl⟩

/-- Witness for `download_all_trip_data_spec`: one pre-existing file, one
successful download, one failure. -/
theorem download_all_trip_data_spec_witness :
    download_all_trip_data (.ok exDlFiles) ["mobi_2023_January.csv"] false exDl
      = .ok ["mobi_2023_January.csv", "mobi_2023_February.csv"] := by
  have h := (download_all_trip_data_spec exDlFiles ["mobi_2023_January.csv"]
    false exDl (by decide)).1
  rw [h]
  decide

end Mobi

namespace Mobi

theorem pyListGet_monthNames_eq_none (n : Nat) :
    pyListGet monthNames ((n : Int) - 1) = none ↔ 12 < n := by
  cases n with
  | zero => decide
  | succ m =>
      have hge : (0 : Int) ≤ ((m + 1 : Nat) : Int) - 1 := by omega
      have htn : (((m + 1 : Nat) : Int) - 1).toNat = m := by omega
      simp only [pyListGet, if_pos hge, htn]
      rw [List.get?_eq_none]
      show monthNames.length ≤ m ↔ 12 < m + 1
      have hlen : monthNames.length = 12 := rfl
      omega

theorem processAnchor_error_iff (baseUrl : String) (a : Anchor) :
    processAnchor baseUrl a = some (.error .indexError) ↔ anchorRaises a = true := by
  simp only [processAnchor, anchorRaises, String.toList]
  cases hcond : (containsSub a.href "drive.google.com"
      || (containsSub (pyLower a.href) ".csv" || containsSub (pyLower a.href) ".zip")) with
  | false => simp
  | true =>
      cases hmy : searchMonthYear a.text.data with
      | some p =>
          obtain ⟨m, y⟩ := p
          simp
      | none =>
          cases hym : searchYm a.href.data with
          | none => simp
          | some p =>
              obtain ⟨y, mn⟩ := p
              cases hg : pyListGet monthNames ((digitsToNat mn.data : Int) - 1) with
              | some m =>
                  have hn : ¬ 12 < digitsToNat mn.data := by
                    intro h
                    rw [(pyListGet_monthNames_eq_none (digitsToNat mn.data)).mpr h] at hg
                    cases hg
                  simp [hn, hg]
              | none =>
                  have hn : 12 < digitsToNat mn.data :=
                    (pyListGet_monthNames_eq_none _).mp hg
                  simp [hn, hg]

end Mobi

namespace Mobi

theorem isOk_map {ε α β : Type} (f : α → β) (e : Except ε α) :
    (e.map f).isOk = e.isOk := by
  cases e <;> rfl

theorem anchorRaises_false_of_not_error {baseUrl : String} {a : Anchor}
    (h : processAnchor baseUrl a ≠ some (.error .indexError)) :
    anchorRaises a = false := by
  by_contra hr
  exact h ((processAnchor_error_iff baseUrl a).mpr (by
    revert hr; cases anchorRaises a <;> simp))

theorem scrapeLoop_isOk (baseUrl : String) (anchors : List Anchor) :
    (scrapeLoop baseUrl anchors).isOk = anchors.all (fun a => !(anchorRaises a)) := by
  induction anchors with
  | nil => rfl
  | cons a rest ih =>
      cases hpa : processAnchor baseUrl a with
      | none =>
          have hra : anchorRaises a = false :=
            anchorRaises_false_of_not_error (by rw [hpa]; intro h; cases h)
          simp [scrapeLoop, hpa, hra, ih]
      | some r =>
          cases r with
          | error e =>
              cases e
              have hra : anchorRaises a = true := (processAnchor_error_iff baseUrl a).mp hpa
              simp [scrapeLoop, hpa, hra, Except.isOk, Except.toBool]
          | ok fi =>
              have hra : anchorRaises a = false :=
                anchorRaises_false_of_not_error (by rw [hpa]; intro h; cases h)
              simp [scrapeLoop, hpa, hra, isOk_map, ih]

theorem scrapeLoop_ok (baseUrl : String) (anchors : List Anchor) :
    ∀ l, scrapeLoop baseUrl anchors = .ok l →
      l = anchors.filterMap (fun a => (processAnchor baseUrl a).bind Except.toOption) := by
  induction anchors with
  | nil =>
      intro l h
      simp [scrapeLoop] at h
      simp [← h]
  | cons a rest ih =>
      intro l h
      cases hpa : processAnchor baseUrl a with
      | none =>
          rw [scrapeLoop, hpa] at h
          simp [List.filterMap_cons, hpa, ih l h]
      | some r =>
          cases r with
          | error e =>
              rw [scrapeLoop, hpa] at h
              cases h
          | ok fi =>
              rw [scrapeLoop, hpa] at h
              cases hs : scrapeLoop baseUrl rest with
              | error e => rw [hs] at h; cases h
              | ok l2 =>
                  rw [hs] at h
                  simp [Except.map] at h
                  simp [List.filterMap_cons, hpa, Except.toOption, ← h, ih l2 hs]

end Mobi

namespace Mobi

/-- C8 counterexample: a fetched and parsed page with one matching anchor
whose href year-month pattern reads month `56` makes the scraper raise an
uncaught `IndexError` instead of returning a descriptor sequence. -/
theorem get_available_data_files_raises :
    get_available_data_files "https://www.mobibikes.ca/en/system-data" badAnchorPage
      = .error .indexError := by
  decide

/-- C8 (amended): on a fetched and parsed page the scraper returns the
descriptors of the matching anchors in page order — month/year from the
text pattern, else from the href year-month pattern via Python list
indexing (month `00` wraps to December), else the `"Unknown"` pair — and
an empty anchor list gives an empty sequence; but it raises an uncaught
`IndexError` exactly when some matching anchor falls through to an href
month above 12, instead of never raising. -/
theorem get_available_data_files_spec (baseUrl : String) (anchors : List Anchor) :
    ((get_available_data_files baseUrl anchors).isOk
        ↔ ∀ a ∈ anchors, anchorRaises a = false) ∧
    (∀ l, get_available_data_files baseUrl anchors = .ok l →
        l = anchors.filterMap (fun a => (processAnchor baseUrl a).bind Except.toOption)) ∧
    (∀ a : Anchor,
        (containsSub a.href "drive.google.com"
          || (containsSub (pyLower a.href) ".csv" || containsSub (pyLower a.href) ".zip"))
            = true →
        searchMonthYear a.text.toList = none →
        searchYm a.href.toList = none →
        processAnchor baseUrl a
          = some (.ok (mkFileInfo baseUrl a (containsSub a.href "drive.google.com")
              "Unknown" "Unknown"))) := by
  refine ⟨?_, ?_, ?_⟩
  · simp only [get_available_data_files]
    rw [scrapeLoop_isOk]
    simp [List.all_eq_true]
  · intro l h
    exact scrapeLoop_ok baseUrl anchors l h
  · intro a hc hmy hym
    simp only [String.toList] at hmy hym
    simp [processAnchor, hc, hmy, hym, String.toList]

/-- Witness for `get_available_data_files_spec`: the well-behaved example
page scrapes without raising. -/
theorem get_available_data_files_spec_witness :
    (get_available_data_files "https://base/" goodAnchorPage).isOk = true :=
  (get_available_data_files_spec "https://base/" goodAnchorPage).1.mpr (by decide)

end Mobi

namespace Mobi

/-- C9: whenever fetching the optional feed raises the client's typed
error, `get_system_alerts` returns the empty alerts document and
`get_free_bike_status` the empty bikes document; a successful fetch passes
through, an untyped failure is never converted, and a typed failure of any
other feed (station information here) propagates to the caller. -/
theorem gbfs_optional_feed_defaults (http : Http) (c : GBFSClient) :
    (∀ e, (get_feed http c "system_alerts").2 = .error (.gbfs e) →
        (get_system_alerts http c).2 = .ok alertsDefault) ∧
    (∀ e, (get_feed http c "free_bike_status").2 = .error (.gbfs e) →
        (get_free_bike_status http c).2 = .ok bikesDefault) ∧
    (∀ j, (get_feed http c "system_alerts").2 = .ok j →
        (get_system_alerts http c).2 = .ok j) ∧
    ((get_system_alerts http c).2 = .error .keyError ↔
        (get_feed http c "system_alerts").2 = .error .keyError) ∧
    (∀ e, (get_feed http c "station_information").2 = .error (.gbfs e) →
        (get_station_information http c).2 = .error (.gbfs e)) := by
  refine ⟨?_, ?_, ?_, ?_, ?_⟩
  · intro e he
    rcases hf : get_feed http c "system_alerts" with ⟨c1, r⟩
    rw [hf] at he
    simp at he
    subst he
    simp [get_system_alerts, hf]
  · intro e he
    rcases hf : get_feed http c "free_bike_status" with ⟨c1, r⟩
    rw [hf] at he
    simp at he
    subst he
    simp [get_free_bike_status, hf]
  · intro j hj
    rcases hf : get_feed http c "system_alerts" with ⟨c1, r⟩
    rw [hf] at hj
    simp at hj
    subst hj
    simp [get_system_alerts, hf]
  · rcases hf : get_feed http c "system_alerts" with ⟨c1, r⟩
    cases r with
    | ok j => simp [get_system_alerts, hf]
    | error pe =>
        cases pe with
        | gbfs e => simp [get_system_alerts, hf]
        | keyError => simp [get_system_alerts, hf]
  · intro e he
    exact he

/-- Witness for `gbfs_optional_feed_defaults`: a network where both
optional feeds fail with a transport error. -/
theorem gbfs_optional_feed_defaults_witness :
    (get_feed exHttp exClient "system_alerts").2
      = .error (.gbfs .requestFailed) ∧
    (get_system_alerts exHttp exClient).2 = .ok alertsDefault ∧
    (get_free_bike_status exHttp exClient).2 = .ok bikesDefault :=
  ⟨rfl,
   (gbfs_optional_feed_defaults exHttp exClient).1 .requestFailed rfl,
   (gbfs_optional_feed_defaults exHttp exClient).2.1 .requestFailed rfl⟩

end Mobi

namespace Mobi

theorem mapColumnAt_header (f : Frame) (name : String) (g : Cell → Cell) :
    (mapColumnAt f name g).header = f.header := by
  unfold mapColumnAt
  cases f.header.indexOf? name <;> rfl

theorem foldl_mapColumnAt_header (g : Cell → Cell) (names : List String) :
    ∀ f : Frame, (names.foldl (fun fr c => mapColumnAt fr c g) f).header = f.header := by
  induction names with
  | nil => intro f; rfl
  | cons c rest ih =>
      intro f
      rw [List.foldl_cons, ih (mapColumnAt f c g), mapColumnAt_header]

theorem standardize_header (df : Frame) :
    (standardize_trip_schema df).header
      = applyMappings (df.header.map sanitizeColumn) := by
  simp only [standardize_trip_schema, standardizeTail]
  rw [mapColumnAt_header, foldl_mapColumnAt_header, foldl_mapColumnAt_header]

theorem not_mem_of_indexOf?_eq_none {l : List String} {a : String}
    (h : l.indexOf? a = none) : a ∉ l := by
  unfold List.indexOf? at h
  rw [List.findIdx?_eq_none_iff] at h
  intro hm
  have := h a hm
  simp at this

theorem setColumn_header_nodup {f : Frame} {name : String} {v : Cell}
    (h : f.header.Nodup) : (setColumn f name v).header.Nodup := by
  unfold setColumn
  cases hi : f.header.indexOf? name with
  | some i => exact h
  | none =>
      have hnm : name ∉ f.header := not_mem_of_indexOf?_eq_none hi
      simp [List.nodup_append, h, hnm]

theorem standardizeRaises_false_of_nodup {df : Frame}
    (h : (standardize_trip_schema df).header.Nodup) :
    standardizeRaises df = false := by
  rw [standardize_header] at h
  unfold standardizeRaises
  rw [List.any_eq_false]
  intro c _
  have hcnt := List.nodup_iff_count_le_one.mp h c
  simp only [Bool.not_eq_true, decide_eq_false_iff_not]
  omega

theorem processFile_header_nodup {f : TripFile} {fr : Frame}
    (hs : standardizesWithoutDup f = true)
    (hp : (processFile f).toOption = some fr) : fr.header.Nodup := by
  cases hr : read_trip_data_file f with
  | error e => simp [processFile, hr, Except.map, Except.toOption] at hp
  | ok df =>
      simp [processFile, hr, Except.map, Except.toOption] at hp
      have hnd : (standardize_trip_schema df).header.Nodup := by
        unfold standardizesWithoutDup at hs
        rw [hr] at hs
        simpa using hs
      subst hp
      exact setColumn_header_nodup hnd

theorem concatRaises_false_of_nodup {fs : List Frame}
    (h : ∀ f ∈ fs, f.header.Nodup) : concatRaises fs = false := by
  unfold concatRaises
  have hany : fs.any
      (fun f => f.header.any (fun c => decide (1 < f.header.count c))) = false := by
    rw [List.any_eq_false]
    intro f hf
    simp only [Bool.not_eq_true]
    rw [List.any_eq_false]
    intro c _
    have hcnt := List.nodup_iff_count_le_one.mp (h f hf) c
    simp only [Bool.not_eq_true, decide_eq_false_iff_not]
    omega
  rw [hany]
  simp

theorem combineLoopChecked_eq (files : List TripFile) :
    ∀ acc, (∀ f ∈ files, standardizesWithoutDup f = true) →
      combineLoopChecked files acc
        = .ok (acc ++ files.filterMap (fun f => (processFile f).toOption)) := by
  induction files with
  | nil => intro acc _; simp [combineLoopChecked]
  | cons f rest ih =>
      intro acc hnd
      have hf : standardizesWithoutDup f = true := hnd f (by simp)
      have hrest : ∀ g ∈ rest, standardizesWithoutDup g = true :=
        fun g hg => hnd g (by simp [hg])
      cases hr : read_trip_data_file f with
      | error e =>
          have hpf : processFileChecked f = .ok none := by
            simp [processFileChecked, hr]
          simp [combineLoopChecked, hpf, ih acc hrest, List.filterMap_cons,
            processFile, Except.map, Except.toOption, hr]
      | ok df =>
          have hnodup : (standardize_trip_schema df).header.Nodup := by
            unfold standardizesWithoutDup at hf
            rw [hr] at hf
            simpa using hf
          have hsr : standardizeRaises df = false :=
            standardizeRaises_false_of_nodup hnodup
          have hpf : processFileChecked f
              = .ok (some (setColumn (standardize_trip_schema df) "source_file"
                  (.str f.fileName))) := by
            simp [processFileChecked, hr, standardize_trip_schema_checked, hsr,
              Except.map]
          simp [combineLoopChecked, hpf, ih _ hrest, List.filterMap_cons,
            processFile, Except.map, Except.toOption, hr]

end Mobi

namespace Mobi

/-- C2 counterexample: a perfectly readable CSV whose headers `departure`
and `departure ` collide after sanitization; both are renamed to
`departure_time`, `pd.to_datetime` receives a two-column frame and raises
an uncaught ValueError, so `combine_trip_data` raises on a list containing
a readable file — where the claim asserts it returns the dataset. -/
theorem combine_trip_data_raises_on_readable_file :
    (read_trip_data_file (.csvFile "dup.csv" dupHeaderCsvBytes)).isOk = true ∧
    combine_trip_data [.csvFile "dup.csv" dupHeaderCsvBytes]
      = .error (.pandas .coercionOnDupLabel) := by
  decide

/-- C2 (amended): provided every readable input standardizes to a
duplicate-free column index (otherwise the coercion steps, or `pd.concat`,
raise an uncaught pandas exception that aborts the combine),
`combine_trip_data` raises if and only if the input list is empty or every
file fails to read — so with N-1 ≥ 1 readable files and one unreadable it
returns, without raising, exactly the readable files' standardized,
source-tagged rows in input order, a single unreadable file raises, and a
combined dataset never comes from zero successfully-read files. -/
theorem combine_trip_data_nodup_spec (files : List TripFile)
    (hnd : ∀ f ∈ files, standardizesWithoutDup f = true) :
    ((combine_trip_data files).isOk
      ↔ ∃ f ∈ files, (read_trip_data_file f).isOk = true) ∧
    (∀ dfc, combine_trip_data files = .ok dfc →
      dfc = concatFrames (files.filterMap (fun f => (processFile f).toOption))) := by
  have hloop : combineLoopChecked files []
      = .ok (files.filterMap (fun f => (processFile f).toOption)) := by
    simpa using combineLoopChecked_eq files [] hnd
  cases files with
  | nil =>
      constructor
      · simp [combine_trip_data, Except.isOk, Except.toBool]
      · intro dfc h
        simp [combine_trip_data] at h
  | cons f0 rest =>
      have hG : ∀ fr ∈ (f0 :: rest).filterMap (fun f => (processFile f).toOption),
          fr.header.Nodup := by
        intro fr hfr
        rcases List.mem_filterMap.mp hfr with ⟨f, hf, hpf⟩
        exact processFile_header_nodup (hnd f hf) hpf
      have hcr := concatRaises_false_of_nodup hG
      by_cases hg : (f0 :: rest).filterMap (fun f => (processFile f).toOption) = []
      · have hAll := List.filterMap_eq_nil_iff.mp hg
        have hval : combine_trip_data (f0 :: rest) = .error (.dp .noFilesRead) := by
          simp [combine_trip_data, hloop, hg]
        rw [hval]
        constructor
        · constructor
          · intro h
            simp [Except.isOk, Except.toBool] at h
          · rintro ⟨f, hf, hok⟩
            have h1 := processFile_toOption_isSome f
            rw [hAll f hf, hok] at h1
            simp at h1
        · intro dfc hdfc
          simp at hdfc
      · have hgi : ((f0 :: rest).filterMap
            (fun f => (processFile f).toOption)).isEmpty = false := by
          simp [List.isEmpty_iff, hg]
        have hval : combine_trip_data (f0 :: rest)
            = .ok (concatFrames ((f0 :: rest).filterMap
                (fun f => (processFile f).toOption))) := by
          simp [combine_trip_data, hloop, hgi, hcr]
        rw [hval]
        constructor
        · constructor
          · intro _
            rcases List.exists_mem_of_ne_nil _ hg with ⟨x, hx⟩
            rcases List.mem_filterMap.mp hx with ⟨f, hf, hfx⟩
            refine ⟨f, hf, ?_⟩
            have h1 := processFile_toOption_isSome f
            rw [hfx] at h1
            simpa using h1.symm
          · intro _
            rfl
        · intro dfc hdfc
          injection hdfc with hh
          exact hh.symm

/-- Witness for `combine_trip_data_nodup_spec`: one readable, duplicate-free
file and one unreadable file make the combine succeed. -/
theorem combine_trip_data_nodup_spec_witness :
    (combine_trip_data [TripFile.csvFile "good.csv" sampleCsvBytes,
      TripFile.csvFile "bad.csv" latinOneBytes]).isOk = true :=
  (combine_trip_data_nodup_spec _ (by decide)).1.mpr
    ⟨TripFile.csvFile "good.csv" sampleCsvBytes, by decide, by decide⟩

end Mobi
